import Mathlib

/-!
Verification development for the AsyncAWS repository (src/sns.py, src/sqs.py).

The signing core is `AWSRequest.__init__` in src/sns.py together with the
helpers `sign` and `getSignatureKey`.  The SQS side (src/sqs.py) contributes
the response parser `SQS.parse` and the per-action parameter builders
(`create_queue`, `get_queue_attributes`, `set_queue_attributes`).

This file shallowly embeds those functions in Lean:
* Python byte strings become `List Nat` (each element a byte value);
* `hashlib.sha256` and `hmac.new(..., hashlib.sha256)` are embedded as a
  complete executable FIPS 180-4 / RFC 2104 implementation over `List Nat`;
* `str.split(sep)` for one-character separators becomes `pySplit`;
* `sorted` on strings becomes the stable insertion sort `pySorted`;
* Python dicts become association lists with first-occurrence lookup and
  replace-in-place-or-append assignment (`dictGet` / `dictSet`), mirroring
  dict key-uniqueness and insertion order;
* exceptions (`IndexError` from `url.split('?')[1]`, `ValueError` from tuple
  unpacking, `AttributeError` from lxml attribute access) become
  `Except PyError`.
-/

/-- PyError models the Python exceptions the embedded code can raise.
`indexError` is the `IndexError` from `url.split('?')[1]` (the spec's
`MalformedRequestError`), `valueError` the tuple-unpacking failure in
`SQS.create_queue`, `attributeError` the lxml objectify attribute miss in
`SQS.parse`. -/
inductive PyError where
  | indexError
  | valueError
  | attributeError
deriving DecidableEq, Repr

/-! ## Bytes and SHA-256 (the `hashlib.sha256` primitive used by src/sns.py) -/

/-- Truncation to a 32-bit word, the implicit arithmetic of SHA-256. -/
def w32 (n : Nat) : Nat := n % 4294967296

/-- Right rotation of a 32-bit word by `n` bits. -/
def rotr (n x : Nat) : Nat := w32 ((x >>> n) ||| (x <<< (32 - n)))

/-- SHA-256 Ch function. -/
def chF (x y z : Nat) : Nat := (x &&& y) ^^^ ((x ^^^ 4294967295) &&& z)

/-- SHA-256 Maj function. -/
def majF (x y z : Nat) : Nat := (x &&& y) ^^^ (x &&& z) ^^^ (y &&& z)

/-- SHA-256 big Sigma0. -/
def bigSigma0 (x : Nat) : Nat := rotr 2 x ^^^ rotr 13 x ^^^ rotr 22 x

/-- SHA-256 big Sigma1. -/
def bigSigma1 (x : Nat) : Nat := rotr 6 x ^^^ rotr 11 x ^^^ rotr 25 x

/-- SHA-256 small sigma0. -/
def smallSigma0 (x : Nat) : Nat := rotr 7 x ^^^ rotr 18 x ^^^ (x >>> 3)

/-- SHA-256 small sigma1. -/
def smallSigma1 (x : Nat) : Nat := rotr 17 x ^^^ rotr 19 x ^^^ (x >>> 10)

/-- Big-endian 4-byte encoding of a 32-bit word. -/
def be32 (n : Nat) : List Nat :=
  [n / 16777216 % 256, n / 65536 % 256, n / 256 % 256, n % 256]

/-- Big-endian 8-byte encoding of a 64-bit length field. -/
def be64 (n : Nat) : List Nat :=
  [n / 72057594037927936 % 256, n / 281474976710656 % 256,
   n / 1099511627776 % 256, n / 4294967296 % 256,
   n / 16777216 % 256, n / 65536 % 256, n / 256 % 256, n % 256]

/-- SHA-256 round constants K (FIPS 180-4 §4.2.2, decimal). -/
def K256 : List Nat :=
  [1116352408, 1899447441, 3049323471, 3921009573, 961987163,
   1508970993, 2453635748, 2870763221, 3624381080, 310598401,
   607225278, 1426881987, 1925078388, 2162078206, 2614888103,
   3248222580, 3835390401, 4022224774, 264347078, 604807628,
   770255983, 1249150122, 1555081692, 1996064986, 2554220882,
   2821834349, 2952996808, 3210313671, 3336571891, 3584528711,
   113926993, 338241895, 666307205, 773529912, 1294757372,
   1396182291, 1695183700, 1986661051, 2177026350, 2456956037,
   2730485921, 2820302411, 3259730800, 3345764771, 3516065817,
   3600352804, 4094571909, 275423344, 430227734, 506948616,
   659060556, 883997877, 958139571, 1322822218, 1537002063,
   1747873779, 1955562222, 2024104815, 2227730452, 2361852424,
   2428436474, 2756734187, 3204031479, 3329325298]

/-- SHA-256 working state: eight 32-bit words. -/
structure Hash8 where
  a : Nat
  b : Nat
  c : Nat
  d : Nat
  e : Nat
  f : Nat
  g : Nat
  h : Nat
deriving Repr

/-- SHA-256 initial hash value (FIPS 180-4 §5.3.3, decimal). -/
def initH : Hash8 :=
  ⟨1779033703, 3144134277, 1013904242, 2773480762,
   1359893119, 2600822924, 528734635, 1541459225⟩

/-- One SHA-256 round, consuming a (round constant, schedule word) pair. -/
def shaStep (hs : Hash8) (kw : Nat × Nat) : Hash8 :=
  let t1 := w32 (hs.h + bigSigma1 hs.e + chF hs.e hs.f hs.g + kw.1 + kw.2)
  let t2 := w32 (bigSigma0 hs.a + majF hs.a hs.b hs.c)
  ⟨w32 (t1 + t2), hs.a, hs.b, hs.c, w32 (hs.d + t1), hs.e, hs.f, hs.g⟩

/-- Big-endian 32-bit word read from bytes at offset `i` of a block. -/
def word32At (b : List Nat) (i : Nat) : Nat :=
  (b.getD i 0) * 16777216 + (b.getD (i + 1) 0) * 65536 + (b.getD (i + 2) 0) * 256 + b.getD (i + 3) 0

/-- Next message-schedule word from the already computed words. -/
def nextWord (w : List Nat) : Nat :=
  let t := w.length
  w32 (smallSigma1 (w.getD (t - 2) 0) + w.getD (t - 7) 0 + smallSigma0 (w.getD (t - 15) 0) + w.getD (t - 16) 0)

/-- Extend the message schedule by `n` further words. -/
def extendW : Nat → List Nat → List Nat
  | 0, w => w
  | n + 1, w => extendW n (w ++ [nextWord w])

/-- Full 64-word message schedule of one 64-byte block. -/
def schedule (block : List Nat) : List Nat :=
  extendW 48 ((List.range 16).map fun i => word32At block (4 * i))

/-- SHA-256 compression of one 64-byte block into the running state. -/
def compress (hs : Hash8) (block : List Nat) : Hash8 :=
  let s := (K256.zip (schedule block)).foldl shaStep hs
  ⟨w32 (hs.a + s.a), w32 (hs.b + s.b), w32 (hs.c + s.c), w32 (hs.d + s.d),
   w32 (hs.e + s.e), w32 (hs.f + s.f), w32 (hs.g + s.g), w32 (hs.h + s.h)⟩

/-- SHA-256 padding: append 0x80, zero bytes to 56 mod 64, then the 64-bit
big-endian bit length of the message. -/
def padMsg (msg : List Nat) : List Nat :=
  msg ++ [0x80] ++ List.replicate ((119 - msg.length % 64) % 64) 0 ++ be64 (8 * msg.length)

/-- Split a padded message into 64-byte blocks. -/
def toBlocks (l : List Nat) : List (List Nat) :=
  if h : l = [] then []
  else
    have : l.length - 64 < l.length := by
      have : 0 < l.length := List.length_pos.mpr h
      omega
    l.take 64 :: toBlocks (l.drop 64)
termination_by l.length
decreasing_by simpa using this

/-- SHA-256 of a byte string, as a 32-byte digest.  This is the
`hashlib.sha256(...).digest()` primitive called by src/sns.py. -/
def sha256 (msg : List Nat) : List Nat :=
  let r := (toBlocks (padMsg msg)).foldl compress initH
  be32 r.a ++ be32 r.b ++ be32 r.c ++ be32 r.d ++ be32 r.e ++ be32 r.f ++ be32 r.g ++ be32 r.h

/-! ## HMAC-SHA256 (the `hmac.new(key, msg, hashlib.sha256)` primitive) -/

/-- HMAC key normalization: keys longer than the 64-byte block are hashed,
then the key is zero-padded to exactly 64 bytes (RFC 2104). -/
def hmacKeyNorm (key : List Nat) : List Nat :=
  let k := if 64 < key.length then sha256 key else key
  k ++ List.replicate (64 - k.length) 0

/-- HMAC-SHA256 core on an already normalized (64-byte) key. -/
def hmacCore (k0 msg : List Nat) : List Nat :=
  sha256 ((k0.map fun b => b ^^^ 0x5c) ++ sha256 ((k0.map fun b => b ^^^ 0x36) ++ msg))

/-- HMAC-SHA256 digest of `msg` under `key`. -/
def hmacSHA256 (key msg : List Nat) : List Nat :=
  hmacCore (hmacKeyNorm key) msg

/-! ## Strings as bytes -/

/-- UTF-8 encoding of one character (Python's `str.encode('utf-8')`,
byte-identical to the Python 2 byte strings used by the code for ASCII). -/
def utf8Bytes (c : Char) : List Nat :=
  let n := c.toNat
  if n < 128 then [n]
  else if n < 2048 then [192 + n / 64, 128 + n % 64]
  else if n < 65536 then [224 + n / 4096, 128 + n / 64 % 64, 128 + n % 64]
  else [240 + n / 262144, 128 + n / 4096 % 64, 128 + n / 64 % 64, 128 + n % 64]

/-- Byte sequence of a string, UTF-8 encoded. -/
def strBytes (s : String) : List Nat :=
  s.data.flatMap utf8Bytes

/-- Lower-case hexadecimal digit for a value below 16. -/
def hexChar (n : Nat) : Char :=
  if n < 10 then Char.ofNat (48 + n) else Char.ofNat (87 + n)

/-- Lower-case hex string of a byte string: Python's `.hexdigest()`. -/
def hexDigest (bs : List Nat) : String :=
  String.mk (bs.flatMap fun b => [hexChar (b / 16), hexChar (b % 16)])

/-! ## Python string split / sorted -/

/-- Split a character list on every occurrence of `sep`
(Python `str.split(sep)` semantics for a one-character separator:
`splitChar c [] = [[]]`, and separators at the ends produce empty pieces). -/
def splitChar (sep : Char) : List Char → List (List Char)
  | [] => [[]]
  | c :: cs =>
    if c = sep then [] :: splitChar sep cs
    else
      match splitChar sep cs with
      | [] => [[c]]
      | p :: ps => (c :: p) :: ps

/-- Python `s.split(sep)` for a one-character separator. -/
def pySplit (sep : Char) (s : String) : List String :=
  (splitChar sep s.data).map String.mk

/-- Lexicographic strict order on character lists by code point — the
comparison Python's `sorted` applies to byte strings. -/
def charListLt : List Char → List Char → Bool
  | [], [] => false
  | [], _ :: _ => true
  | _ :: _, [] => false
  | a :: as, b :: bs =>
    if a.toNat < b.toNat then true
    else if b.toNat < a.toNat then false
    else charListLt as bs

/-- Boolean string order used by Python's `sorted` on byte strings:
`strLe a b` iff `a` is not greater than `b` in lexicographic order. -/
def strLe (a b : String) : Bool :=
  ! charListLt b.data a.data

/-- Ordered insertion into a sorted list of strings (stable). -/
def insertStr (x : String) : List String → List String
  | [] => [x]
  | y :: ys => if strLe x y then x :: y :: ys else y :: insertStr x ys

/-- Python's `sorted` on a list of strings: stable ascending sort by
whole-string lexicographic order. -/
def pySorted (l : List String) : List String :=
  l.foldr insertStr []

/-! ## Python dicts as association lists

Python dicts have unique keys and preserve insertion order; assignment
`d[k] = v` replaces the value in place when `k` is present and appends
otherwise, and lookup returns the value of the (unique) matching key. -/

/-- Python `d[k] = v` on an association list. -/
def dictSet : List (String × String) → String → String → List (String × String)
  | [], k, v => [(k, v)]
  | (k', v') :: rest, k, v =>
    if k' = k then (k, v) :: rest else (k', v') :: dictSet rest k v

/-- Python `d.update(kvs)`: assign every pair of `kvs` in order. -/
def dictUpdate (d : List (String × String)) (kvs : List (String × String)) : List (String × String) :=
  kvs.foldl (fun d kv => dictSet d kv.1 kv.2) d

/-- Python `d.get(k)` / `d[k]`: value of the first matching key. -/
def dictGet : List (String × String) → String → Option String
  | [], _ => none
  | (k', v') :: rest, k => if k' = k then some v' else dictGet rest k

/-! ## Timestamps

`AWSRequest.__init__` captures `t = datetime.datetime.utcnow()` once
(src/sns.py line 14) and formats it with `strftime`.  Wall-clock capture is
not representable in a pure embedding, so the captured instant is passed in
as an explicit `DateTime` value; `datetime` guarantees the field ranges
(month 1..12, day 1..31, hour < 24, minute < 60, second < 60). -/

/-- Calendar timestamp captured by `datetime.datetime.utcnow()`. -/
structure DateTime where
  year : Nat
  month : Nat
  day : Nat
  hour : Nat
  minute : Nat
  second : Nat
deriving Repr, DecidableEq

/-- Decimal digit character of `n % 10`. -/
def digitChar10 (n : Nat) : Char := Char.ofNat (48 + n % 10)

/-- Two-digit zero-padded decimal rendering (`strftime` `%m`, `%d`, `%H`,
`%M`, `%S` on the valid field ranges produced by `datetime`). -/
def pad2 (n : Nat) : String := String.mk [digitChar10 (n / 10), digitChar10 n]

/-- Four-digit zero-padded decimal rendering (`strftime` `%Y` for the years
produced by `utcnow`). -/
def pad4 (n : Nat) : String :=
  String.mk [digitChar10 (n / 1000), digitChar10 (n / 100), digitChar10 (n / 10), digitChar10 n]

/-- `t.strftime('%Y%m%d')` — src/sns.py line 28. -/
def dateStamp (t : DateTime) : String :=
  pad4 t.year ++ pad2 t.month ++ pad2 t.day

/-- `t.strftime('%Y%m%dT%H%M%SZ')` — src/sns.py line 27. -/
def amzDate (t : DateTime) : String :=
  dateStamp t ++ "T" ++ pad2 t.hour ++ pad2 t.minute ++ pad2 t.second ++ "Z"

/-! ## urlparse model

src/sns.py line 23 calls `urlparse(url)` on the original URL and uses only
`netloc` and `path`.  For the `scheme://netloc/path?query` URLs this client
builds, `netloc` is the portion after the first `://` up to the next `/`,
`?` or `#`, and `path` runs from there up to the next `?` or `#`. -/

/-- Portion of the URL after the first `://`, if any. -/
def afterScheme (url : String) : Option String :=
  (url.splitOn "://").get? 1

/-- `urlparse(url).netloc` for `scheme://...` URLs (empty otherwise). -/
def urlNetloc (url : String) : String :=
  match afterScheme url with
  | none => ""
  | some rest => String.mk (rest.data.takeWhile fun c => ¬ (c = '/' ∨ c = '?' ∨ c = '#'))

/-- `urlparse(url).path`. -/
def urlPath (url : String) : String :=
  match afterScheme url with
  | none => String.mk (url.data.takeWhile fun c => ¬ (c = '?' ∨ c = '#'))
  | some rest =>
    String.mk ((rest.data.dropWhile fun c => ¬ (c = '/' ∨ c = '?' ∨ c = '#')).takeWhile
      fun c => ¬ (c = '?' ∨ c = '#'))

/-! ## The signing engine: `AWSRequest.__init__` (src/sns.py lines 13-59) -/

/-- `url.split('?')[1]` — src/sns.py line 19.  `none` is the `IndexError`
raised when the URL contains no `?`. -/
def rawQuery (url : String) : Option String :=
  (pySplit '?' url).get? 1

/-- `'&'.join(sorted(rq.split('&')))` — src/sns.py lines 19-20. -/
def canonicalQuerystring (rq : String) : String :=
  String.intercalate "&" (pySorted (pySplit '&' rq))

/-- `url.split('?')[0] + '?' + canonical_querystring` — src/sns.py line 21. -/
def rewrittenUrl (url cqs : String) : String :=
  (pySplit '?' url).headD "" ++ "?" ++ cqs

/-- `'host:' + host + '\n' + 'x-amz-date:' + amz_date + '\n'` — line 30. -/
def canonical_headers (host amz : String) : String :=
  "host:" ++ host ++ "\n" ++ "x-amz-date:" ++ amz ++ "\n"

/-- `signed_headers = 'host;x-amz-date'` — line 31. -/
def signed_headers : String := "host;x-amz-date"

/-- `hashlib.sha256('').hexdigest()` — line 32. -/
def payload_hash : String := hexDigest (sha256 (strBytes ""))

/-- Canonical request string — src/sns.py line 34. -/
def canonical_request (method uri cqs ch : String) : String :=
  method ++ "\n" ++ uri ++ "\n" ++ cqs ++ "\n" ++ ch ++ "\n" ++ signed_headers ++ "\n" ++ payload_hash

/-- `datestamp + '/' + region + '/' + service + '/' + 'aws4_request'` — line 36. -/
def credential_scope (datestamp region service : String) : String :=
  datestamp ++ "/" ++ region ++ "/" ++ service ++ "/" ++ "aws4_request"

/-- String to sign — src/sns.py line 37. -/
def string_to_sign (amz_date datestamp region service cr : String) : String :=
  "AWS4-HMAC-SHA256" ++ "\n" ++ amz_date ++ "\n" ++ credential_scope datestamp region service
    ++ "\n" ++ hexDigest (sha256 (strBytes cr))

/-- `AWSRequest.sign(key, msg)` — src/sns.py lines 51-52. -/
def signHmac (key : List Nat) (msg : String) : List Nat :=
  hmacSHA256 key (strBytes msg)

/-- `AWSRequest.getSignatureKey` — src/sns.py lines 54-59. -/
def getSignatureKey (key dateStampStr regionName serviceName : String) : List Nat :=
  let kDate := signHmac (strBytes ("AWS4" ++ key)) dateStampStr
  let kRegion := signHmac kDate regionName
  let kService := signHmac kRegion serviceName
  let kSigning := signHmac kService "aws4_request"
  kSigning

/-- `hmac.new(signing_key, string_to_sign.encode('utf-8'), hashlib.sha256).hexdigest()`
— src/sns.py line 39. -/
def signatureOf (signing_key : List Nat) (sts : String) : String :=
  hexDigest (hmacSHA256 signing_key (strBytes sts))

/-- Hex signature of a request, assembled exactly as src/sns.py lines 19-39
do from the captured timestamp and the keyword arguments (`rq` is the raw
query string already extracted at line 19). -/
def awsSignature (method url rq secret region service : String) (t : DateTime) : String :=
  let cqs := canonicalQuerystring rq
  let cr := canonical_request method (urlPath url) cqs (canonical_headers (urlNetloc url) (amzDate t))
  let sts := string_to_sign (amzDate t) (dateStamp t) region service cr
  signatureOf (getSignatureKey secret (dateStamp t) region service) sts

/-- Authorization header value — src/sns.py line 40. -/
def awsAuthorization (access_key datestamp region service signature : String) : String :=
  "AWS4-HMAC-SHA256" ++ " " ++ "Credential=" ++ access_key ++ "/"
    ++ credential_scope datestamp region service ++ ", " ++ "SignedHeaders=" ++ signed_headers
    ++ ", " ++ "Signature=" ++ signature

/-- Observable outcome of `AWSRequest.__init__`: the request handed to
`HTTPRequest.__init__`. -/
structure SignedRequest where
  url : String
  method : String
  headers : List (String × String)
deriving Repr

/-- Result of a successful `AWSRequest.__init__`, including the final state
of the caller-supplied headers dict.  Line 46 binds `headers` to the very
dict object the caller passed (`kwargs.get('headers', {})`) and line 47
mutates it with `headers.update({...})`, so after the call the caller's
dict holds the updated entries; line 48 stores the same object back into
`kwargs`. -/
structure InitResult where
  request : SignedRequest
  callerHeaders : List (String × String)
deriving Repr

/-- Body of `AWSRequest.__init__` after the `url.split('?')[1]` indexing has
succeeded with raw query `rq` (src/sns.py lines 19-49). -/
def awsRequestBuild (method url rq service region access_key secret_key : String)
    (headers : List (String × String)) (t : DateTime) : InitResult :=
  let cqs := canonicalQuerystring rq
  let newUrl := rewrittenUrl url cqs
  let auth := awsAuthorization access_key (dateStamp t) region service
    (awsSignature method url rq secret_key region service t)
  let h := dictUpdate headers [("x-amz-date", amzDate t), ("Authorization", auth)]
  { request := { url := newUrl, method := method, headers := h }, callerHeaders := h }

/-- `AWSRequest.__init__` (src/sns.py lines 13-49): signs the request for the
timestamp `t` captured at entry, or raises `IndexError` at line 19 when the
URL has no `?`. -/
def awsRequestInit (method url service region access_key secret_key : String)
    (headers : List (String × String)) (t : DateTime) : Except PyError InitResult :=
  match rawQuery url with
  | none => .error .indexError
  | some rq => .ok (awsRequestBuild method url rq service region access_key secret_key headers t)

/-! ## tornado.httputil.url_concat

`url_concat(url, args)` appends the urlencoded parameters to the URL with
`?` or `&` as appropriate.  `urlencode` renders each pair as
`quote_plus(k) + '=' + quote_plus(v)` joined by `&`. -/

/-- Upper-case hexadecimal digit for a value below 16. -/
def hexCharU (n : Nat) : Char :=
  if n < 10 then Char.ofNat (48 + n) else Char.ofNat (55 + n)

/-- Python `urllib.quote_plus`: keep alphanumerics and `_.-`, encode a space
as `+`, percent-encode every other byte. -/
def quotePlus (s : String) : String :=
  String.mk (s.data.flatMap fun c =>
    if c.isAlphanum ∨ c = '_' ∨ c = '.' ∨ c = '-' then [c]
    else if c = ' ' then ['+']
    else (utf8Bytes c).flatMap fun b => ['%', hexCharU (b / 16), hexCharU (b % 16)])

/-- Python `urllib.urlencode` on a list of pairs. -/
def urlencode (args : List (String × String)) : String :=
  String.intercalate "&" (args.map fun kv => quotePlus kv.1 ++ "=" ++ quotePlus kv.2)

/-- `tornado.httputil.url_concat`. -/
def urlConcat (url : String) (args : List (String × String)) : String :=
  if args = [] then url
  else if url.endsWith "?" ∨ url.endsWith "&" then url ++ urlencode args
  else if url.contains '?' then url ++ "&" ++ urlencode args
  else url ++ "?" ++ urlencode args

/-! ## SQS parameter builders (src/sqs.py)

Python dicts are iterated in an implementation-defined order in Python 2;
the builders below take the attribute collections in their iteration order
(a list), which is exactly the information the loops consume. -/

/-- Loop body of `SQS.create_queue` (src/sqs.py lines 159-161):
`for i, (key, value) in enumerate(attributes)` iterates over the KEYS of the
`attributes` dict and tuple-unpacks each key; a key that is not a sequence
of length 2 raises `ValueError`, and a 2-character string key unpacks into
its two 1-character substrings. -/
def createQueueLoop : List (String × String) → Nat → List String → Except PyError (List (String × String))
  | p, _, [] => .ok p
  | p, i, k :: rest =>
    match k.data with
    | [c1, c2] =>
      createQueueLoop
        (dictSet (dictSet p ("Attribute." ++ toString i ++ ".Name") (String.mk [c1]))
          ("Attribute." ++ toString i ++ ".Value") (String.mk [c2]))
        (i + 1) rest
    | _ => .error .valueError

/-- Parameter dict built by `SQS.create_queue` (src/sqs.py lines 155-165):
the initial `params` literal, the attribute loop over the dict's keys, then
`params.update(self.common_params)`. -/
def createQueueParams (queue_name : String) (attributes : List (String × String)) :
    Except PyError (List (String × String)) := do
  let p ← createQueueLoop [("Action", "CreateQueue"), ("QueueName", queue_name)] 0
    (attributes.map Prod.fst)
  return dictUpdate p [("Version", "2012-11-05")]

/-- Loop of `SQS.get_queue_attributes` (src/sqs.py lines 211-212):
`params['AttributeName.%s' % (i + 1)] = attr`, indices starting at 1. -/
def getQueueAttributesLoop : List (String × String) → Nat → List String → List (String × String)
  | p, _, [] => p
  | p, i, a :: rest =>
    getQueueAttributesLoop (dictSet p ("AttributeName." ++ toString (i + 1)) a) (i + 1) rest

/-- Parameter dict built by `SQS.get_queue_attributes` (src/sqs.py
lines 208-214). -/
def getQueueAttributesParams (attributes : List String) : List (String × String) :=
  dictUpdate (getQueueAttributesLoop [("Action", "GetQueueAttributes")] 0 attributes)
    [("Version", "2012-11-05")]

/-- Parameter dict built by `SQS.set_queue_attributes` (src/sqs.py
lines 230-237): the loop body ignores the index `i` and assigns the fixed
keys `Attribute.Name` / `Attribute.Value` on every iteration. -/
def setQueueAttributesParams (attributes : List (String × String)) : List (String × String) :=
  dictUpdate
    (attributes.foldl (fun p kv => dictSet (dictSet p "Attribute.Name" kv.1) "Attribute.Value" kv.2)
      [("Action", "SetQueueAttributes")])
    [("Version", "2012-11-05")]

/-- Request URL built by `SQS.set_queue_attributes` (src/sqs.py line 238). -/
def setQueueAttributesFullUrl (queue_url : String) (attributes : List (String × String)) : String :=
  urlConcat queue_url (setQueueAttributesParams attributes)

/-! ## SQS response parser: `SQS.parse` (src/sqs.py lines 20-71)

`lxml.objectify` trees are modelled as nodes with a tag, a text content and
a list of child nodes.  `hasattr(root, k)` asks whether `root` has a child
element tagged `k`; `root.k` returns the first such child or raises
`AttributeError`; `str(el)` / `el.text` give the text content; an element
with no children and empty text compares equal to `''`. -/

/-- Element of a parsed XML response. -/
inductive XNode where
  | elem (tag text : String) (children : List XNode)

/-- Tag of a node. -/
def XNode.tag : XNode → String
  | .elem t _ _ => t

/-- Text content of a node (empty for `None`). -/
def XNode.text : XNode → String
  | .elem _ s _ => s

/-- Child list of a node. -/
def XNode.children : XNode → List XNode
  | .elem _ _ c => c

/-- First child with the given tag. -/
def findChild (tag : String) : List XNode → Option XNode
  | [] => none
  | c :: cs => if c.tag = tag then some c else findChild tag cs

/-- `hasattr(x, tag)` on an objectify node. -/
def hasattrX (x : XNode) (tag : String) : Bool :=
  (findChild tag x.children).isSome

/-- `x.tag` attribute access: first matching child or `AttributeError`. -/
def getChild (x : XNode) (tag : String) : Except PyError XNode :=
  match findChild tag x.children with
  | some c => .ok c
  | none => .error .attributeError

/-- `str(x.tag)` / `x.tag.text`: text of the first matching child or
`AttributeError`. -/
def childText (x : XNode) (tag : String) : Except PyError String :=
  match findChild tag x.children with
  | some c => .ok c.text
  | none => .error .attributeError

/-- Objectify equality of an element with `''`: no children, empty text. -/
def isEmptyElem (x : XNode) : Bool :=
  x.children.isEmpty && (x.text == "")

/-- Message dict built by `_parse_ReceiveMessageResult` (src/sqs.py
lines 52-57). -/
structure SqsMessage where
  body : String
  md5OfBody : String
  receiptHandle : String
  attributes : List (String × String)
deriving Repr, DecidableEq

/-- Structured value returned by `SQS.parse`: queue URL string, attribute
dict, or received message dict. -/
inductive ParseValue where
  | queueUrl (u : String)
  | attrs (d : List (String × String))
  | message (m : SqsMessage)
deriving Repr, DecidableEq

/-- Attribute-collection loops of the two dict-building helpers
(src/sqs.py lines 43-44 and 58-59): each `Attribute` element must expose
`Name` and `Value`/`Value.text`. -/
def collectAttrs : List XNode → List (String × String) → Except PyError (List (String × String))
  | [], acc => .ok acc
  | a :: rest, acc => do
    let n ← childText a "Name"
    let v ← childText a "Value"
    collectAttrs rest (dictSet acc n v)

/-- `_parse_GetQueueAttributesResult` (src/sqs.py lines 40-45).  Iterating
`root.GetQueueAttributesResult.Attribute` raises `AttributeError` when there
is no `Attribute` child. -/
def parseGetQueueAttributesResult (root : XNode) : Except PyError (List (String × String)) := do
  let r ← getChild root "GetQueueAttributesResult"
  let attrs := r.children.filter fun c => c.tag = "Attribute"
  if attrs.isEmpty then .error .attributeError
  else collectAttrs attrs []

/-- `_parse_ReceiveMessageResult` (src/sqs.py lines 47-60): an empty
`ReceiveMessageResult` element yields `None`. -/
def parseReceiveMessageResult (root : XNode) : Except PyError (Option ParseValue) := do
  let r ← getChild root "ReceiveMessageResult"
  if isEmptyElem r then return none
  else do
    let m ← getChild r "Message"
    let b ← childText m "Body"
    let md5 ← childText m "MD5OfBody"
    let rh ← childText m "ReceiptHandle"
    let attrElems := m.children.filter fun c => c.tag = "Attribute"
    if attrElems.isEmpty then .error .attributeError
    else do
      let attrs ← collectAttrs attrElems []
      return some (.message ⟨b, md5, rh, attrs⟩)

/-- `SQS.parse` dispatch (src/sqs.py lines 62-71): probe the parsed root for
each recognized top-level shape and delegate; fall through to `None`.
(The `response_mapping` dict is iterated in an arbitrary order in Python 2;
the order below is the source listing's order — the shapes are probed
independently, and on response bodies exposing at most one shape the order
is immaterial.) -/
def sqsParse (root : XNode) : Except PyError (Option ParseValue) :=
  if hasattrX root "CreateQueueResult" then do
    let c ← getChild root "CreateQueueResult"
    let u ← childText c "QueueUrl"
    return some (.queueUrl u)
  else if hasattrX root "GetQueueAttributesResult" then do
    let d ← parseGetQueueAttributesResult root
    return some (.attrs d)
  else if hasattrX root "ReceiveMessageResult" then
    parseReceiveMessageResult root
  else
    return none

/-! ## Spec-side definitions

`claimRawQuery` follows the specification's words (spec.md §4.1 step 1,
"Split URL into base and raw query string on the first `?`"): the raw query
string is everything after the first `?`.  It is compared against the code's
`rawQuery` above, which is `url.split('?')[1]` — the segment between the
first and second `?`. -/

/-- Modelled from the spec: raw query string obtained by splitting the URL
on the first `?` — the entire remainder after the first `?`. -/
def claimRawQuery (url : String) : Option String :=
  if '?' ∈ url.data then some (String.mk ((url.data.dropWhile (· ≠ '?')).tail)) else none

/-- Modelled from the spec: the rewritten request URL, base + `?` + the
canonical querystring of the raw query string after the first `?`. -/
def claimRewrittenUrl (url : String) : Option String :=
  (claimRawQuery url).map fun rq =>
    String.mk (url.data.takeWhile (· ≠ '?')) ++ "?" ++ canonicalQuerystring rq

/-- Reference timestamp used for concrete instances: 2015-08-30 12:36:00 UTC,
the instant of the published SigV4 test suite. -/
def tRef : DateTime := ⟨2015, 8, 30, 12, 36, 0⟩

/-! ## General lemmas about the embedding -/

theorem strData (a b : String) : (a ++ b).data = a.data ++ b.data := rfl

theorem strExt {a b : String} (h : a.data = b.data) : a = b := by
  cases a; cases b; exact congrArg String.mk h

theorem strAssoc (a b c : String) : (a ++ b) ++ c = a ++ (b ++ c) := by
  cases a; cases b; cases c
  apply congrArg String.mk
  exact List.append_assoc ..

theorem splitChar_ne_nil (sep : Char) : ∀ l : List Char, splitChar sep l ≠ []
  | [] => by simp [splitChar]
  | c :: cs => by
    simp only [splitChar]
    split
    · simp
    · split
      · simp
      · simp

theorem splitChar_head (sep : Char) : ∀ l : List Char,
    (splitChar sep l).head? = some (l.takeWhile (· ≠ sep))
  | [] => rfl
  | c :: cs => by
    simp only [splitChar]
    by_cases h : c = sep
    · subst h
      rw [if_pos rfl, List.takeWhile_cons_of_neg (by simp)]
      simp
    · rw [if_neg h, List.takeWhile_cons_of_pos (by simp [h])]
      have ih := splitChar_head sep cs
      cases hs : splitChar sep cs with
      | nil => exact absurd hs (splitChar_ne_nil sep cs)
      | cons p ps =>
        rw [hs] at ih
        simp only [List.head?_cons, Option.some.injEq] at ih
        simp [ih]

theorem splitChar_not_mem {sep : Char} : ∀ {l : List Char}, sep ∉ l → splitChar sep l = [l]
  | [], _ => rfl
  | c :: cs, h => by
    have hc : ¬ c = sep := fun hc => h (hc ▸ List.mem_cons_self c cs)
    have hcs : sep ∉ cs := fun hm => h (List.mem_cons_of_mem c hm)
    simp only [splitChar, if_neg hc, splitChar_not_mem hcs]

theorem splitChar_append {sep : Char} (l₂ : List Char) :
    ∀ {l₁ : List Char}, sep ∉ l₁ → splitChar sep (l₁ ++ sep :: l₂) = l₁ :: splitChar sep l₂
  | [], _ => by
    show splitChar sep (sep :: l₂) = [] :: splitChar sep l₂
    simp [splitChar]
  | c :: cs, h => by
    have hc : ¬ c = sep := fun hc => h (hc ▸ List.mem_cons_self c cs)
    have hcs : sep ∉ cs := fun hm => h (List.mem_cons_of_mem c hm)
    show splitChar sep (c :: (cs ++ sep :: l₂)) = (c :: cs) :: splitChar sep l₂
    rw [splitChar, if_neg hc, splitChar_append l₂ hcs]

theorem mem_decomp {c : Char} : ∀ {l : List Char}, c ∈ l →
    l = l.takeWhile (· ≠ c) ++ c :: (l.dropWhile (· ≠ c)).tail ∧ c ∉ l.takeWhile (· ≠ c)
  | x :: xs, h => by
    by_cases hx : x = c
    · subst hx
      rw [List.takeWhile_cons_of_neg (by simp), List.dropWhile_cons_of_neg (by simp)]
      simp
    · have hxs : c ∈ xs := by
        rcases List.mem_cons.mp h with h' | h'
        · exact absurd h'.symm hx
        · exact h'
      obtain ⟨ih1, ih2⟩ := mem_decomp hxs
      rw [List.takeWhile_cons_of_pos (by simp [hx]), List.dropWhile_cons_of_pos (by simp [hx])]
      constructor
      · rw [List.cons_append]
        exact congrArg (List.cons x) ih1
      · intro hm
        rcases List.mem_cons.mp hm with h' | h'
        · exact hx h'.symm
        · exact ih2 h'

theorem rawQuery_none {url : String} (h : '?' ∉ url.data) : rawQuery url = none := by
  simp [rawQuery, pySplit, splitChar_not_mem h]

theorem rawQuery_of_mem {url : String} (h : '?' ∈ url.data) :
    rawQuery url = some (String.mk (((url.data.dropWhile (· ≠ '?')).tail).takeWhile (· ≠ '?'))) := by
  obtain ⟨hdec, hnm⟩ := mem_decomp h
  unfold rawQuery pySplit
  conv_lhs => rw [hdec]
  rw [splitChar_append _ hnm]
  cases hs : splitChar '?' ((url.data.dropWhile (· ≠ '?')).tail) with
  | nil => exact absurd hs (splitChar_ne_nil _ _)
  | cons p ps =>
    have := splitChar_head '?' ((url.data.dropWhile (· ≠ '?')).tail)
    rw [hs] at this
    simp only [List.head?_cons, Option.some.injEq] at this
    simp [this]

theorem rawQuery_mem {url rq : String} (h : rawQuery url = some rq) : '?' ∈ url.data := by
  by_contra hn
  rw [rawQuery_none hn] at h
  exact Option.noConfusion h

theorem pySplit_headD (sep : Char) (s : String) :
    (pySplit sep s).headD "" = String.mk (s.data.takeWhile (· ≠ sep)) := by
  unfold pySplit
  cases hs : splitChar sep s.data with
  | nil => exact absurd hs (splitChar_ne_nil _ _)
  | cons p ps =>
    have := splitChar_head sep s.data
    rw [hs] at this
    simp only [List.head?_cons, Option.some.injEq] at this
    simp [this]

/-! ### Dict lemmas -/

theorem dictGet_dictSet_self : ∀ (d : List (String × String)) (k v : String),
    dictGet (dictSet d k v) k = some v
  | [], k, v => by simp [dictSet, dictGet]
  | (k', v') :: rest, k, v => by
    by_cases h : k' = k
    · simp [dictSet, dictGet, h]
    · simp [dictSet, dictGet, h, dictGet_dictSet_self rest k v]

theorem dictGet_dictSet_ne : ∀ (d : List (String × String)) {k k' : String} (v : String),
    k' ≠ k → dictGet (dictSet d k' v) k = dictGet d k
  | [], k, k', v, h => by simp [dictSet, dictGet, h]
  | (a, b) :: rest, k, k', v, h => by
    by_cases ha : a = k'
    · subst ha
      simp [dictSet, dictGet, h]
    · by_cases hk : a = k
      · have hk' : ¬ k = k' := fun hh => h hh.symm
        subst hk
        simp [dictSet, dictGet, hk']
      · simp [dictSet, dictGet, ha, hk, dictGet_dictSet_ne rest v h]

theorem keys_dictSet : ∀ (d : List (String × String)) (k v : String),
    ∀ a ∈ (dictSet d k v).map Prod.fst, a = k ∨ a ∈ d.map Prod.fst
  | [], k, v => by
    intro a ha
    simp only [dictSet, List.map_cons, List.map_nil, List.mem_singleton] at ha
    exact Or.inl ha
  | (k', v') :: rest, k, v => by
    intro a ha
    by_cases h : k' = k
    · simp only [dictSet, if_pos h, List.map_cons, List.mem_cons] at ha
      rcases ha with ha | ha
      · exact Or.inl ha
      · exact Or.inr (by simp [ha])
    · simp only [dictSet, if_neg h, List.map_cons, List.mem_cons] at ha
      rcases ha with ha | ha
      · exact Or.inr (by simp [ha])
      · rcases keys_dictSet rest k v a ha with h' | h'
        · exact Or.inl h'
        · exact Or.inr (by simp [h'])

theorem keys_dictSet_of_mem : ∀ {d : List (String × String)} {k : String}, k ∈ d.map Prod.fst →
    ∀ v, (dictSet d k v).map Prod.fst = d.map Prod.fst
  | (k', v') :: rest, k, h, v => by
    by_cases hk : k' = k
    · simp [dictSet, hk]
    · have hrest : k ∈ rest.map Prod.fst := by
        rcases List.mem_cons.mp h with h' | h'
        · exact absurd h'.symm hk
        · exact h'
      simp [dictSet, hk, keys_dictSet_of_mem hrest v]

theorem keys_dictSet_of_not_mem : ∀ {d : List (String × String)} {k : String}, k ∉ d.map Prod.fst →
    ∀ v, (dictSet d k v).map Prod.fst = d.map Prod.fst ++ [k]
  | [], k, _, v => by simp [dictSet]
  | (k', v') :: rest, k, h, v => by
    have hk : ¬ k' = k := fun hk => h (by simp [hk])
    have hrest : k ∉ rest.map Prod.fst := fun hm => h (by simp [hm])
    simp [dictSet, hk, keys_dictSet_of_not_mem hrest v]

theorem nodup_keys_dictSet {d : List (String × String)} (h : (d.map Prod.fst).Nodup)
    (k v : String) : ((dictSet d k v).map Prod.fst).Nodup := by
  by_cases hm : k ∈ d.map Prod.fst
  · rw [keys_dictSet_of_mem hm]
    exact h
  · rw [keys_dictSet_of_not_mem hm]
    refine List.Nodup.append h (List.nodup_singleton k) ?_
    intro a ha hb
    rcases List.mem_singleton.mp hb with rfl
    exact hm ha

theorem mem_dictSet_val : ∀ {d : List (String × String)}, (d.map Prod.fst).Nodup →
    ∀ {k v v' : String}, (k, v') ∈ dictSet d k v → v' = v
  | [], _, k, v, v', h => by
    simp only [dictSet, List.mem_singleton, Prod.mk.injEq, true_and] at h
    exact h
  | (a, b) :: rest, hn, k, v, v', h => by
    simp only [List.map_cons, List.nodup_cons] at hn
    by_cases ha : a = k
    · subst ha
      simp only [dictSet, if_true, if_pos, List.mem_cons, Prod.mk.injEq, true_and] at h
      exact h.elim (fun h1 => h1) (fun h2 => absurd (List.mem_map_of_mem Prod.fst h2) hn.1)
    · simp only [dictSet, if_neg ha, List.mem_cons] at h
      rcases h with h | h
      · exact absurd (congrArg Prod.fst h).symm ha
      · exact mem_dictSet_val hn.2 h

theorem mem_dictSet_ne : ∀ {d : List (String × String)} {k k' v v' : String}, k ≠ k' →
    (k, v') ∈ dictSet d k' v → (k, v') ∈ d
  | [], k, k', v, v', hne, h => by
    simp only [dictSet, List.mem_singleton] at h
    exact absurd (congrArg Prod.fst h) hne
  | (a, b) :: rest, k, k', v, v', hne, h => by
    by_cases ha : a = k'
    · simp only [dictSet, if_pos ha, List.mem_cons] at h
      rcases h with h | h
      · exact absurd (congrArg Prod.fst h) hne
      · exact List.mem_cons_of_mem _ h
    · simp only [dictSet, if_neg ha, List.mem_cons] at h
      rcases h with h | h
      · exact h ▸ List.mem_cons_self _ _
      · exact List.mem_cons_of_mem _ (mem_dictSet_ne hne h)

/-! ### Hex and digest lemmas -/

theorem sha256_length (m : List Nat) : (sha256 m).length = 32 := by
  simp [sha256, be32]

theorem be32_mem_lt {b w : Nat} (h : b ∈ be32 w) : b < 256 := by
  simp only [be32, List.mem_cons, List.not_mem_nil, or_false] at h
  rcases h with h | h | h | h <;> omega

theorem sha256_mem_lt {m : List Nat} {b : Nat} (h : b ∈ sha256 m) : b < 256 := by
  simp only [sha256, List.mem_append] at h
  rcases h with ((((((h | h) | h) | h) | h) | h) | h) | h <;> exact be32_mem_lt h

theorem hmac_length (k m : List Nat) : (hmacSHA256 k m).length = 32 :=
  sha256_length _

theorem hmac_mem_lt {k m : List Nat} {b : Nat} (h : b ∈ hmacSHA256 k m) : b < 256 :=
  sha256_mem_lt (show b ∈ sha256 _ from h)

theorem hexChar_mem : ∀ n, n < 16 → hexChar n ∈ ("0123456789abcdef").data := by decide

theorem flat2_length : ∀ bs : List Nat,
    (bs.flatMap fun b => [hexChar (b / 16), hexChar (b % 16)]).length = 2 * bs.length
  | [] => rfl
  | b :: rest => by
    simp [flat2_length rest]
    omega

theorem hexDigest_length (bs : List Nat) : (hexDigest bs).length = 2 * bs.length :=
  flat2_length bs

theorem hexDigest_mem {bs : List Nat} (hb : ∀ b ∈ bs, b < 256) :
    ∀ c ∈ (hexDigest bs).data, c ∈ ("0123456789abcdef").data := by
  intro c hc
  have hc' : c ∈ bs.flatMap fun b => [hexChar (b / 16), hexChar (b % 16)] := hc
  rcases List.mem_flatMap.mp hc' with ⟨b, hbmem, hcb⟩
  have hblt := hb b hbmem
  rcases List.mem_cons.mp hcb with rfl | hcb
  · exact hexChar_mem _ (by omega)
  · rcases List.mem_singleton.mp hcb with rfl
    exact hexChar_mem _ (by omega)

theorem hexDigest_no_newline {bs : List Nat} (hb : ∀ b ∈ bs, b < 256) :
    '\n' ∉ (hexDigest bs).data :=
  fun h => absurd (hexDigest_mem hb _ h) (by decide)

theorem digitChar10_isDigit (n : Nat) : (digitChar10 n).isDigit = true := by
  have h : n % 10 < 10 := Nat.mod_lt _ (by omega)
  have hall : ∀ m, m < 10 → (Char.ofNat (48 + m)).isDigit = true := by decide
  exact hall _ h

theorem strMkData (s : String) : String.mk s.data = s := rfl

/-- Authorization header reassociated into the single-literal format of the
spec (spec.md §6). -/
theorem auth_format (ak d r s sig : String) :
    awsAuthorization ak d r s sig =
      "AWS4-HMAC-SHA256 Credential=" ++ ak ++ "/" ++ d ++ "/" ++ r ++ "/" ++ s
        ++ "/aws4_request, SignedHeaders=host;x-amz-date, Signature=" ++ sig := by
  simp only [awsAuthorization, credential_scope, signed_headers, strAssoc]
  rfl

theorem no_newline_scope {d r s : String} (hd : '\n' ∉ d.data) (hr : '\n' ∉ r.data)
    (hs : '\n' ∉ s.data) : '\n' ∉ (credential_scope d r s).data := by
  have hdata : (credential_scope d r s).data
      = d.data ++ '/' :: (r.data ++ '/' :: (s.data ++ '/' :: "aws4_request".data)) := by
    simp only [credential_scope, strData, List.append_assoc]
    rfl
  rw [hdata]
  intro hm
  rcases List.mem_append.mp hm with hm | hm
  · exact hd hm
  · rcases List.mem_cons.mp hm with hm | hm
    · exact absurd hm (by decide)
    · rcases List.mem_append.mp hm with hm | hm
      · exact hr hm
      · rcases List.mem_cons.mp hm with hm | hm
        · exact absurd hm (by decide)
        · rcases List.mem_append.mp hm with hm | hm
          · exact hs hm
          · rcases List.mem_cons.mp hm with hm | hm
            · exact absurd hm (by decide)
            · exact absurd hm (by decide)

theorem sts_data (ts d r s cr : String) :
    (string_to_sign ts d r s cr).data
      = "AWS4-HMAC-SHA256".data ++ '\n' :: (ts.data ++ '\n' :: ((credential_scope d r s).data
          ++ '\n' :: (hexDigest (sha256 (strBytes cr))).data)) := by
  simp only [string_to_sign, strData, List.append_assoc]
  rfl

/-! ## Claim C1: querystring canonicalization and URL rewriting -/

/-- C1 counterexample.  The claim says the raw query string is obtained "by
splitting the URL on the first `?`", i.e. everything after the first `?`.
The code's `url.split('?')[1]` instead yields the segment between the first
and the second `?`: on `http://h/p?b=2?a=1` the code rewrites the URL to
`http://h/p?b=2` (dropping `?a=1`), while the claim's reading produces
`http://h/p?b=2?a=1`. -/
theorem claim_C1_counterexample :
    (awsRequestInit "GET" "http://h/p?b=2?a=1" "sns" "us-east-1" "AK" "SK" [] tRef).toOption.map
      (fun r => r.request.url) = some "http://h/p?b=2"
  ∧ claimRewrittenUrl "http://h/p?b=2?a=1" = some "http://h/p?b=2?a=1"
  ∧ ("http://h/p?b=2" : String) ≠ "http://h/p?b=2?a=1" := by
  refine ⟨rfl, rfl, by decide⟩

/-- C1 (amended): for every URL containing `?`, the raw query string is the
segment of the URL strictly between the first and the second `?` (the rest
of the URL after a second `?` is discarded); it is split on `&`, the tokens
are sorted lexicographically as whole strings (`"B=2","A=1"` sorts to
`"A=1","B=2"`, and `"A=9","A=10"` sorts to `"A=10","A=9"`), rejoined with
`&`, and the request URL is rewritten to base + `?` + this canonical
querystring, where base is the part of the URL before the first `?`. -/
theorem claim_C1_amended : ∀ url rq : String, rawQuery url = some rq →
    rq.data = ((url.data.dropWhile (· ≠ '?')).tail).takeWhile (· ≠ '?')
  ∧ (∀ (method service region ak sk : String) (headers : List (String × String)) (t : DateTime),
      awsRequestInit method url service region ak sk headers t
        = .ok (awsRequestBuild method url rq service region ak sk headers t)
      ∧ (awsRequestBuild method url rq service region ak sk headers t).request.url
        = String.mk (url.data.takeWhile (· ≠ '?')) ++ "?"
          ++ String.intercalate "&" (pySorted (pySplit '&' rq)))
  ∧ pySorted ["B=2", "A=1"] = ["A=1", "B=2"]
  ∧ pySorted ["A=9", "A=10"] = ["A=10", "A=9"] := by
  intro url rq h
  have hmem : '?' ∈ url.data := rawQuery_mem h
  have hchar := rawQuery_of_mem hmem
  rw [h] at hchar
  have hrq : rq = String.mk (((url.data.dropWhile (· ≠ '?')).tail).takeWhile (· ≠ '?')) :=
    Option.some.inj hchar
  refine ⟨by rw [hrq], ?_, by decide, by decide⟩
  intro method service region ak sk headers t
  constructor
  · unfold awsRequestInit
    rw [h]
  · show rewrittenUrl url (canonicalQuerystring rq) = _
    unfold rewrittenUrl canonicalQuerystring
    rw [pySplit_headD]

/-- C1 witness: the amended statement applied at a concrete request. -/
theorem claim_C1_amended_witness :
    (awsRequestBuild "GET" "http://h/p?b=2&a=1" "b=2&a=1" "sns" "us-east-1" "AK" "SK" [] tRef).request.url
      = String.mk (("http://h/p?b=2&a=1" : String).data.takeWhile (· ≠ '?')) ++ "?"
        ++ String.intercalate "&" (pySorted (pySplit '&' "b=2&a=1")) :=
  ((claim_C1_amended "http://h/p?b=2&a=1" "b=2&a=1" rfl).2.1 "GET" "sns" "us-east-1" "AK" "SK"
    [] tRef).2

/-! ## Claim C2: signing-key derivation chain -/

/-- C2: the derived signing key is the four-step HMAC-SHA256 chain
`kSigning = HMAC(HMAC(HMAC(HMAC("AWS4"+secret, date), region), service),
"aws4_request")`, each step's output used as the next step's key (the
second argument below is always the message); identical inputs give
identical bytes. -/
theorem claim_C2 : ∀ secret date region service : String,
    getSignatureKey secret date region service
      = hmacSHA256 (hmacSHA256 (hmacSHA256 (hmacSHA256 (strBytes ("AWS4" ++ secret))
          (strBytes date)) (strBytes region)) (strBytes service)) (strBytes "aws4_request")
  ∧ (∀ secret2 date2 region2 service2 : String, secret = secret2 → date = date2 →
      region = region2 → service = service2 →
      getSignatureKey secret date region service
        = getSignatureKey secret2 date2 region2 service2) :=
  fun _ _ _ _ =>
    ⟨rfl, fun _ _ _ _ h1 h2 h3 h4 => by rw [h1, h2, h3, h4]⟩

/-- C2 witness at the vendor test-vector inputs. -/
theorem claim_C2_witness :
    getSignatureKey "wJalrXUtnFEMI/K7MDENG+bPxRfiCYEXAMPLEKEY" "20150830" "us-east-1" "iam"
      = hmacSHA256 (hmacSHA256 (hmacSHA256 (hmacSHA256
          (strBytes ("AWS4" ++ "wJalrXUtnFEMI/K7MDENG+bPxRfiCYEXAMPLEKEY"))
          (strBytes "20150830")) (strBytes "us-east-1")) (strBytes "iam"))
          (strBytes "aws4_request")
  ∧ getSignatureKey "wJalrXUtnFEMI/K7MDENG+bPxRfiCYEXAMPLEKEY" "20150830" "us-east-1" "iam"
      = getSignatureKey "wJalrXUtnFEMI/K7MDENG+bPxRfiCYEXAMPLEKEY" "20150830" "us-east-1" "iam" :=
  ⟨(claim_C2 "wJalrXUtnFEMI/K7MDENG+bPxRfiCYEXAMPLEKEY" "20150830" "us-east-1" "iam").1,
   (claim_C2 "wJalrXUtnFEMI/K7MDENG+bPxRfiCYEXAMPLEKEY" "20150830" "us-east-1" "iam").2
     _ _ _ _ rfl rfl rfl rfl⟩

/-! ## Claim C3: string to sign and signature computation -/

/-- C3: the hex signature is `hex(HMAC_SHA256(signingKey, stringToSign))`
with `stringToSign` the four-line string
`"AWS4-HMAC-SHA256\n" + ts + "\n" + credentialScope + "\n" +
hex(SHA256(canonicalRequest))` and
`credentialScope = date + "/" + region + "/" + service + "/aws4_request"`;
the pipeline's signature is exactly this computation, and whenever the
timestamp, date, region and service contain no newline, the string to sign
splits on newlines into exactly those four lines. -/
theorem claim_C3 (k : List Nat) (ts d r s cr : String) :
    signatureOf k (string_to_sign ts d r s cr)
      = hexDigest (hmacSHA256 k (strBytes ("AWS4-HMAC-SHA256" ++ "\n" ++ ts ++ "\n"
          ++ (d ++ "/" ++ r ++ "/" ++ s ++ "/aws4_request") ++ "\n"
          ++ hexDigest (sha256 (strBytes cr)))))
  ∧ credential_scope d r s = d ++ "/" ++ r ++ "/" ++ s ++ "/aws4_request"
  ∧ (∀ (method url rq secret region service : String) (t : DateTime),
      awsSignature method url rq secret region service t
        = signatureOf (getSignatureKey secret (dateStamp t) region service)
            (string_to_sign (amzDate t) (dateStamp t) region service
              (canonical_request method (urlPath url) (canonicalQuerystring rq)
                (canonical_headers (urlNetloc url) (amzDate t)))))
  ∧ ('\n' ∉ ts.data → '\n' ∉ d.data → '\n' ∉ r.data → '\n' ∉ s.data →
      pySplit '\n' (string_to_sign ts d r s cr)
        = ["AWS4-HMAC-SHA256", ts, credential_scope d r s,
           hexDigest (sha256 (strBytes cr))]) := by
  refine ⟨?_, ?_, fun _ _ _ _ _ _ _ => rfl, ?_⟩
  · simp only [signatureOf, string_to_sign, credential_scope, strAssoc]
    rfl
  · simp only [credential_scope, strAssoc]
    rfl
  · intro hts hd hr hs
    have h1 : '\n' ∉ "AWS4-HMAC-SHA256".data := by decide
    have h2 : '\n' ∉ (credential_scope d r s).data := no_newline_scope hd hr hs
    have h3 : '\n' ∉ (hexDigest (sha256 (strBytes cr))).data :=
      hexDigest_no_newline fun _ hb => sha256_mem_lt hb
    unfold pySplit
    rw [sts_data, splitChar_append _ h1, splitChar_append _ hts, splitChar_append _ h2,
      splitChar_not_mem h3]
    simp only [List.map_cons, List.map_nil, strMkData]

/-- C3 witness at concrete newline-free components. -/
theorem claim_C3_witness :
    pySplit '\n' (string_to_sign "20150830T123600Z" "20150830" "us-east-1" "iam" "CR")
      = ["AWS4-HMAC-SHA256", "20150830T123600Z", credential_scope "20150830" "us-east-1" "iam",
         hexDigest (sha256 (strBytes "CR"))] :=
  (claim_C3 [] "20150830T123600Z" "20150830" "us-east-1" "iam" "CR").2.2.2
    (by decide) (by decide) (by decide) (by decide)

/-! ## Claim C6: missing query string fails, present query string succeeds -/

/-- C6: constructing a request whose URL has no `?` fails synchronously
with the error raised at `url.split('?')[1]` (the spec's
`MalformedRequestError`), before anything else happens; a URL containing a
`?` (in particular any URL with at least one query parameter) never raises
this error and construction succeeds. -/
theorem claim_C6 : ∀ (method url service region ak sk : String)
    (headers : List (String × String)) (t : DateTime),
    ('?' ∉ url.data → awsRequestInit method url service region ak sk headers t
      = .error .indexError)
  ∧ ('?' ∈ url.data → ∃ res, awsRequestInit method url service region ak sk headers t
      = .ok res) := by
  intro method url service region ak sk headers t
  constructor
  · intro h
    unfold awsRequestInit
    rw [rawQuery_none h]
  · intro h
    refine ⟨awsRequestBuild method url
      (String.mk (((url.data.dropWhile (· ≠ '?')).tail).takeWhile (· ≠ '?')))
      service region ak sk headers t, ?_⟩
    unfold awsRequestInit
    rw [rawQuery_of_mem h]

/-- C6 witness: a concrete URL without `?` fails, a concrete URL with a
query parameter succeeds. -/
theorem claim_C6_witness :
    awsRequestInit "GET" "http://h/noquery" "sns" "us-east-1" "AK" "SK" [] tRef
      = .error .indexError
  ∧ ∃ res, awsRequestInit "GET" "http://h/p?a=1" "sns" "us-east-1" "AK" "SK" [] tRef
      = .ok res :=
  ⟨(claim_C6 "GET" "http://h/noquery" "sns" "us-east-1" "AK" "SK" [] tRef).1 (by decide),
   (claim_C6 "GET" "http://h/p?a=1" "sns" "us-east-1" "AK" "SK" [] tRef).2 (by decide)⟩

/-! ## Claim C7: access-key independence and (non-)sensitivity -/

/-- C7 counterexample.  The claim says changing the secret key (all else
fixed) changes the signature.  HMAC zero-pads keys shorter than the 64-byte
block, so the secrets `"SECRETKEY"` and `"SECRETKEY\x00"` produce the same
padded HMAC key and hence the identical signature, while being different
strings. -/
theorem claim_C7_counterexample :
    awsSignature "GET" "http://h/p?a=1" "a=1" "SECRETKEY" "us-east-1" "sns" tRef
      = awsSignature "GET" "http://h/p?a=1" "a=1" "SECRETKEY\x00" "us-east-1" "sns" tRef
  ∧ ("SECRETKEY" : String) ≠ "SECRETKEY\x00" := by
  constructor
  · have hk : hmacKeyNorm (strBytes ("AWS4" ++ "SECRETKEY"))
        = hmacKeyNorm (strBytes ("AWS4" ++ "SECRETKEY\x00")) := by decide
    simp only [awsSignature, signatureOf, getSignatureKey, signHmac, hmacSHA256]
    rw [hk]
  · decide

/-- C7 (amended): two signing calls identical except for the access key
carry Authorization headers with the very same `Signature=` value (the
signature term does not mention the access key) but different values
(the `Credential=` field embeds the access key, and distinct access keys
give distinct headers); sensitivity of the signature to the remaining
inputs does not hold unconditionally — see the counterexample, where two
distinct secret keys yield the identical signature. -/
theorem claim_C7_amended : ∀ (method url rq service region sk : String)
    (headers : List (String × String)) (t : DateTime) (ak1 ak2 : String),
    dictGet (awsRequestBuild method url rq service region ak1 sk headers t).request.headers
        "Authorization"
      = some ("AWS4-HMAC-SHA256 Credential=" ++ ak1 ++ "/" ++ dateStamp t ++ "/" ++ region
          ++ "/" ++ service ++ "/aws4_request, SignedHeaders=host;x-amz-date, Signature="
          ++ awsSignature method url rq sk region service t)
  ∧ dictGet (awsRequestBuild method url rq service region ak2 sk headers t).request.headers
        "Authorization"
      = some ("AWS4-HMAC-SHA256 Credential=" ++ ak2 ++ "/" ++ dateStamp t ++ "/" ++ region
          ++ "/" ++ service ++ "/aws4_request, SignedHeaders=host;x-amz-date, Signature="
          ++ awsSignature method url rq sk region service t)
  ∧ (ak1 ≠ ak2 →
      awsAuthorization ak1 (dateStamp t) region service
          (awsSignature method url rq sk region service t)
        ≠ awsAuthorization ak2 (dateStamp t) region service
          (awsSignature method url rq sk region service t)) := by
  intro method url rq service region sk headers t ak1 ak2
  have hget : ∀ ak : String,
      dictGet (awsRequestBuild method url rq service region ak sk headers t).request.headers
          "Authorization"
        = some (awsAuthorization ak (dateStamp t) region service
            (awsSignature method url rq sk region service t)) := by
    intro ak
    show dictGet (dictUpdate headers _) "Authorization" = _
    simp only [dictUpdate, List.foldl_cons, List.foldl_nil]
    rw [dictGet_dictSet_self]
  refine ⟨?_, ?_, ?_⟩
  · rw [hget ak1, auth_format]
  · rw [hget ak2, auth_format]
  · intro hne heq
    rw [auth_format, auth_format] at heq
    have hdata := congrArg String.data heq
    simp only [strData, List.append_assoc] at hdata
    exact hne (strExt (List.append_cancel_right (List.append_cancel_left hdata)))

/-- C7 witness: concrete distinct access keys. -/
theorem claim_C7_amended_witness :
    dictGet (awsRequestBuild "GET" "http://h/p?a=1" "a=1" "sns" "us-east-1" "AKIDEXAMPLE1" "SK"
        [] tRef).request.headers "Authorization"
      = some ("AWS4-HMAC-SHA256 Credential=" ++ "AKIDEXAMPLE1" ++ "/" ++ dateStamp tRef ++ "/"
          ++ "us-east-1" ++ "/" ++ "sns"
          ++ "/aws4_request, SignedHeaders=host;x-amz-date, Signature="
          ++ awsSignature "GET" "http://h/p?a=1" "a=1" "SK" "us-east-1" "sns" tRef)
  ∧ awsAuthorization "AKIDEXAMPLE1" (dateStamp tRef) "us-east-1" "sns"
        (awsSignature "GET" "http://h/p?a=1" "a=1" "SK" "us-east-1" "sns" tRef)
      ≠ awsAuthorization "AKIDEXAMPLE2" (dateStamp tRef) "us-east-1" "sns"
        (awsSignature "GET" "http://h/p?a=1" "a=1" "SK" "us-east-1" "sns" tRef) :=
  ⟨(claim_C7_amended "GET" "http://h/p?a=1" "a=1" "sns" "us-east-1" "SK" [] tRef
      "AKIDEXAMPLE1" "AKIDEXAMPLE2").1,
   (claim_C7_amended "GET" "http://h/p?a=1" "a=1" "sns" "us-east-1" "SK" [] tRef
      "AKIDEXAMPLE1" "AKIDEXAMPLE2").2.2 (by decide)⟩

/-! ## Claim C4: required headers and their format -/

theorem strLen (s : String) : s.length = s.data.length := rfl

theorem amzDate_data (t : DateTime) :
    (amzDate t).data
      = [digitChar10 (t.year / 1000), digitChar10 (t.year / 100), digitChar10 (t.year / 10),
         digitChar10 t.year, digitChar10 (t.month / 10), digitChar10 t.month,
         digitChar10 (t.day / 10), digitChar10 t.day, 'T',
         digitChar10 (t.hour / 10), digitChar10 t.hour,
         digitChar10 (t.minute / 10), digitChar10 t.minute,
         digitChar10 (t.second / 10), digitChar10 t.second, 'Z'] := by
  simp only [amzDate, dateStamp, pad4, pad2, strData, List.append_assoc]
  rfl

/-- C4: every signed request carries an `x-amz-date` header with the
captured timestamp in the 16-character `YYYYMMDDThhmmssZ` shape (eight
digits, `T`, six digits, `Z`) and an `Authorization` header of the literal
format `AWS4-HMAC-SHA256 Credential=<ak>/<date>/<region>/<service>/aws4_request,
SignedHeaders=host;x-amz-date, Signature=<sig>` whose signature segment is
exactly 64 lower-case hexadecimal characters. -/
theorem claim_C4 (method url rq service region ak sk : String) (headers : List (String × String))
    (t : DateTime) (hq : rawQuery url = some rq) :
    awsRequestInit method url service region ak sk headers t
      = .ok (awsRequestBuild method url rq service region ak sk headers t)
  ∧ dictGet (awsRequestBuild method url rq service region ak sk headers t).request.headers
      "x-amz-date" = some (amzDate t)
  ∧ dictGet (awsRequestBuild method url rq service region ak sk headers t).request.headers
      "Authorization"
      = some ("AWS4-HMAC-SHA256 Credential=" ++ ak ++ "/" ++ dateStamp t ++ "/" ++ region ++ "/"
          ++ service ++ "/aws4_request, SignedHeaders=host;x-amz-date, Signature="
          ++ awsSignature method url rq sk region service t)
  ∧ (amzDate t).length = 16
  ∧ (amzDate t).data
      = [digitChar10 (t.year / 1000), digitChar10 (t.year / 100), digitChar10 (t.year / 10),
         digitChar10 t.year, digitChar10 (t.month / 10), digitChar10 t.month,
         digitChar10 (t.day / 10), digitChar10 t.day, 'T',
         digitChar10 (t.hour / 10), digitChar10 t.hour,
         digitChar10 (t.minute / 10), digitChar10 t.minute,
         digitChar10 (t.second / 10), digitChar10 t.second, 'Z']
  ∧ (∀ n : Nat, (digitChar10 n).isDigit = true)
  ∧ (awsSignature method url rq sk region service t).length = 64
  ∧ (∀ c ∈ (awsSignature method url rq sk region service t).data,
      c ∈ ("0123456789abcdef").data) := by
  have hsig : awsSignature method url rq sk region service t
      = hexDigest (hmacSHA256 (getSignatureKey sk (dateStamp t) region service)
          (strBytes (string_to_sign (amzDate t) (dateStamp t) region service
            (canonical_request method (urlPath url) (canonicalQuerystring rq)
              (canonical_headers (urlNetloc url) (amzDate t)))))) := rfl
  refine ⟨?_, ?_, ?_, ?_, amzDate_data t, digitChar10_isDigit, ?_, ?_⟩
  · unfold awsRequestInit
    rw [hq]
  · show dictGet (dictUpdate headers _) "x-amz-date" = _
    simp only [dictUpdate, List.foldl_cons, List.foldl_nil]
    rw [dictGet_dictSet_ne _ _ (by decide), dictGet_dictSet_self]
  · show dictGet (dictUpdate headers _) "Authorization" = _
    simp only [dictUpdate, List.foldl_cons, List.foldl_nil]
    rw [dictGet_dictSet_self, auth_format]
  · rw [strLen, amzDate_data]
    rfl
  · rw [hsig, hexDigest_length, hmac_length]
  · rw [hsig]
    exact hexDigest_mem fun _ hb => hmac_mem_lt hb

/-- C4 witness at a concrete request. -/
theorem claim_C4_witness :
    awsRequestInit "GET" "http://h/p?a=1" "sns" "us-east-1" "AK" "SK" [] tRef
      = .ok (awsRequestBuild "GET" "http://h/p?a=1" "a=1" "sns" "us-east-1" "AK" "SK" [] tRef)
  ∧ (awsSignature "GET" "http://h/p?a=1" "a=1" "SK" "us-east-1" "sns" tRef).length = 64 :=
  ⟨(claim_C4 "GET" "http://h/p?a=1" "a=1" "sns" "us-east-1" "AK" "SK" [] tRef rfl).1,
   (claim_C4 "GET" "http://h/p?a=1" "a=1" "sns" "us-east-1" "AK" "SK" [] tRef
     rfl).2.2.2.2.2.2.1⟩

/-! ## Claim C5: header-dict mutation -/

theorem callerHeaders_build (method url rq service region ak sk : String) (t : DateTime) :
    (awsRequestBuild method url rq service region ak sk [] t).callerHeaders
      = [("x-amz-date", amzDate t),
         ("Authorization", awsAuthorization ak (dateStamp t) region service
           (awsSignature method url rq sk region service t))] := by
  show dictUpdate [] _ = _
  simp only [dictUpdate, List.foldl_cons, List.foldl_nil]
  simp [dictSet]

/-- C5 counterexample.  The claim says the caller's headers map is
unchanged after the call.  Line 46 of src/sns.py binds the caller's dict
itself and line 47 runs `headers.update({...})` on it, so a caller passing
an empty dict finds the two new entries in their own dict afterwards — the
map is not unchanged (it would have to still be empty). -/
theorem claim_C5_counterexample :
    (awsRequestInit "GET" "http://h/p?a=1" "sqs" "us-east-1" "AK" "SK" [] tRef).toOption.map
      (fun r => r.callerHeaders) ≠ some [] := by
  intro h
  have h1 : awsRequestInit "GET" "http://h/p?a=1" "sqs" "us-east-1" "AK" "SK" [] tRef
      = .ok (awsRequestBuild "GET" "http://h/p?a=1" "a=1" "sqs" "us-east-1" "AK" "SK" [] tRef) :=
    rfl
  rw [h1] at h
  simp only [Except.toOption, Option.map] at h
  rw [callerHeaders_build] at h
  exact List.noConfusion (Option.some.inj h)

/-- C5 (amended): the returned request's headers contain `x-amz-date` and
`Authorization` entries, with any pre-existing entries under those names
replaced; but the caller-supplied headers dict is mutated in place — after
the call it holds exactly the same updated entries as the returned request's
headers (the returned mapping is the caller's dict object, updated). -/
theorem claim_C5_amended (method url rq service region ak sk : String)
    (headers : List (String × String)) (t : DateTime)
    (hq : rawQuery url = some rq) (hn : (headers.map Prod.fst).Nodup) :
    awsRequestInit method url service region ak sk headers t
      = .ok (awsRequestBuild method url rq service region ak sk headers t)
  ∧ (awsRequestBuild method url rq service region ak sk headers t).callerHeaders
      = (awsRequestBuild method url rq service region ak sk headers t).request.headers
  ∧ (awsRequestBuild method url rq service region ak sk headers t).request.headers
      = dictUpdate headers [("x-amz-date", amzDate t),
          ("Authorization", awsAuthorization ak (dateStamp t) region service
            (awsSignature method url rq sk region service t))]
  ∧ dictGet (awsRequestBuild method url rq service region ak sk headers t).request.headers
      "x-amz-date" = some (amzDate t)
  ∧ dictGet (awsRequestBuild method url rq service region ak sk headers t).request.headers
      "Authorization"
      = some (awsAuthorization ak (dateStamp t) region service
          (awsSignature method url rq sk region service t))
  ∧ (∀ v, ("x-amz-date", v)
        ∈ (awsRequestBuild method url rq service region ak sk headers t).request.headers →
      v = amzDate t)
  ∧ (∀ v, ("Authorization", v)
        ∈ (awsRequestBuild method url rq service region ak sk headers t).request.headers →
      v = awsAuthorization ak (dateStamp t) region service
          (awsSignature method url rq sk region service t)) := by
  have hupd : (awsRequestBuild method url rq service region ak sk headers t).request.headers
      = dictSet (dictSet headers "x-amz-date" (amzDate t)) "Authorization"
          (awsAuthorization ak (dateStamp t) region service
            (awsSignature method url rq sk region service t)) := rfl
  refine ⟨?_, rfl, rfl, ?_, ?_, ?_, ?_⟩
  · unfold awsRequestInit
    rw [hq]
  · rw [hupd, dictGet_dictSet_ne _ _ (by decide), dictGet_dictSet_self]
  · rw [hupd, dictGet_dictSet_self]
  · intro v hv
    rw [hupd] at hv
    exact mem_dictSet_val hn (mem_dictSet_ne (by decide) hv)
  · intro v hv
    rw [hupd] at hv
    exact mem_dictSet_val (nodup_keys_dictSet hn _ _) hv

/-- C5 witness: concrete request with a caller headers dict holding a
pre-existing Authorization entry. -/
theorem claim_C5_amended_witness :
    dictGet (awsRequestBuild "GET" "http://h/p?a=1" "a=1" "sns" "us-east-1" "AK" "SK"
        [("Authorization", "old"), ("Accept", "x")] tRef).request.headers "Authorization"
      = some (awsAuthorization "AK" (dateStamp tRef) "us-east-1" "sns"
          (awsSignature "GET" "http://h/p?a=1" "a=1" "SK" "us-east-1" "sns" tRef))
  ∧ (∀ v, ("Authorization", v)
        ∈ (awsRequestBuild "GET" "http://h/p?a=1" "a=1" "sns" "us-east-1" "AK" "SK"
            [("Authorization", "old"), ("Accept", "x")] tRef).request.headers →
      v = awsAuthorization "AK" (dateStamp tRef) "us-east-1" "sns"
          (awsSignature "GET" "http://h/p?a=1" "a=1" "SK" "us-east-1" "sns" tRef)) :=
  ⟨(claim_C5_amended "GET" "http://h/p?a=1" "a=1" "sns" "us-east-1" "AK" "SK"
      [("Authorization", "old"), ("Accept", "x")] tRef rfl (by decide)).2.2.2.2.1,
   (claim_C5_amended "GET" "http://h/p?a=1" "a=1" "sns" "us-east-1" "AK" "SK"
      [("Authorization", "old"), ("Accept", "x")] tRef rfl (by decide)).2.2.2.2.2.2⟩

/-! ## Claim C8: parser returns an absent result, not a failure -/

/-- C8: when none of the three recognized top-level shapes is present the
parser returns `.ok none` (an absent value, not an error), and a body whose
`ReceiveMessageResult` element is empty also parses to `.ok none`. -/
theorem claim_C8 : ∀ root : XNode,
    (hasattrX root "CreateQueueResult" = false →
     hasattrX root "GetQueueAttributesResult" = false →
     hasattrX root "ReceiveMessageResult" = false →
     sqsParse root = .ok none)
  ∧ (∀ rmr : XNode, hasattrX root "CreateQueueResult" = false →
     hasattrX root "GetQueueAttributesResult" = false →
     findChild "ReceiveMessageResult" root.children = some rmr →
     isEmptyElem rmr = true →
     sqsParse root = .ok none) := by
  intro root
  constructor
  · intro h1 h2 h3
    simp [sqsParse, h1, h2, h3]
    rfl
  · intro rmr h1 h2 hf he
    have h3 : hasattrX root "ReceiveMessageResult" = true := by
      simp [hasattrX, hf]
    have hg : getChild root "ReceiveMessageResult" = .ok rmr := by
      simp [getChild, hf]
    simp [sqsParse, h1, h2, h3, parseReceiveMessageResult, hg, he, Bind.bind, Except.bind]
    rfl

/-- C8 witness: a response with no recognized shape and a response with an
empty receive-result element both parse to an absent value. -/
theorem claim_C8_witness :
    sqsParse (.elem "Response" "" [.elem "RequestId" "" []]) = .ok none
  ∧ sqsParse (.elem "Response" "" [.elem "ReceiveMessageResult" "" []]) = .ok none :=
  ⟨(claim_C8 (.elem "Response" "" [.elem "RequestId" "" []])).1 rfl rfl rfl,
   (claim_C8 (.elem "Response" "" [.elem "ReceiveMessageResult" "" []])).2
     (.elem "ReceiveMessageResult" "" []) rfl rfl rfl rfl⟩

/-! ## Claim C9: set_queue_attributes keeps only the last attribute -/

theorem setQA_foldl_keys : ∀ (attrs : List (String × String)) (p : List (String × String)),
    ∀ k ∈ ((attrs.foldl
        (fun p kv => dictSet (dictSet p "Attribute.Name" kv.1) "Attribute.Value" kv.2) p).map
          Prod.fst),
      k ∈ p.map Prod.fst ∨ k = "Attribute.Name" ∨ k = "Attribute.Value"
  | [], p => by
    intro k hk
    exact Or.inl hk
  | a :: rest, p => by
    intro k hk
    simp only [List.foldl_cons] at hk
    rcases setQA_foldl_keys rest _ k hk with h | h
    · rcases keys_dictSet _ _ _ _ h with h' | h'
      · exact Or.inr (Or.inr h')
      · rcases keys_dictSet _ _ _ _ h' with h'' | h''
        · exact Or.inr (Or.inl h'')
        · exact Or.inl h''
    · exact Or.inr h

theorem setQA_foldl_nodup : ∀ (attrs : List (String × String)) (p : List (String × String)),
    (p.map Prod.fst).Nodup →
    ((attrs.foldl
        (fun p kv => dictSet (dictSet p "Attribute.Name" kv.1) "Attribute.Value" kv.2) p).map
          Prod.fst).Nodup
  | [], p, h => h
  | a :: rest, p, h => by
    simp only [List.foldl_cons]
    exact setQA_foldl_nodup rest _ (nodup_keys_dictSet (nodup_keys_dictSet h _ _) _ _)

theorem setQA_foldl_last : ∀ (attrs : List (String × String)) (p : List (String × String))
    (kv : String × String), attrs.getLast? = some kv →
    dictGet (attrs.foldl
        (fun p kv => dictSet (dictSet p "Attribute.Name" kv.1) "Attribute.Value" kv.2) p)
      "Attribute.Name" = some kv.1
    ∧ dictGet (attrs.foldl
        (fun p kv => dictSet (dictSet p "Attribute.Name" kv.1) "Attribute.Value" kv.2) p)
      "Attribute.Value" = some kv.2
  | [a], p, kv, h => by
    have ha : a = kv := Option.some.inj h
    subst ha
    constructor
    · simp only [List.foldl_cons, List.foldl_nil]
      rw [dictGet_dictSet_ne _ _ (by decide), dictGet_dictSet_self]
    · simp only [List.foldl_cons, List.foldl_nil]
      rw [dictGet_dictSet_self]
  | a :: b :: rest, p, kv, h => by
    rw [List.getLast?_cons_cons] at h
    simp only [List.foldl_cons]
    have := setQA_foldl_last (b :: rest) (dictSet (dictSet p "Attribute.Name" a.1)
      "Attribute.Value" a.2) kv h
    simpa using this

/-- C9: the parameter dict built by `set_queue_attributes` (and serialized
into the request URL by `url_concat`) holds at most one `Attribute.Name`
and one `Attribute.Value` entry — the key/value pair iterated last — and
its keys are only `Action`, `Attribute.Name`, `Attribute.Value`, `Version`:
no indexed `Attribute.<n>.Name` / `Attribute.<n>.Value` parameter is ever
produced, so all but one supplied attribute are silently discarded. -/
theorem claim_C9 : ∀ (attributes : List (String × String)) (queue_url : String),
    setQueueAttributesFullUrl queue_url attributes
      = urlConcat queue_url (setQueueAttributesParams attributes)
  ∧ ((setQueueAttributesParams attributes).map Prod.fst).Nodup
  ∧ List.count "Attribute.Name" ((setQueueAttributesParams attributes).map Prod.fst) ≤ 1
  ∧ List.count "Attribute.Value" ((setQueueAttributesParams attributes).map Prod.fst) ≤ 1
  ∧ (∀ kv : String × String, attributes.getLast? = some kv →
      dictGet (setQueueAttributesParams attributes) "Attribute.Name" = some kv.1
      ∧ dictGet (setQueueAttributesParams attributes) "Attribute.Value" = some kv.2)
  ∧ (∀ k ∈ (setQueueAttributesParams attributes).map Prod.fst,
      k = "Action" ∨ k = "Attribute.Name" ∨ k = "Attribute.Value" ∨ k = "Version") := by
  intro attributes queue_url
  have hnodup : ((setQueueAttributesParams attributes).map Prod.fst).Nodup := by
    unfold setQueueAttributesParams
    simp only [dictUpdate, List.foldl_cons, List.foldl_nil]
    exact nodup_keys_dictSet (setQA_foldl_nodup attributes _ (by simp)) _ _
  refine ⟨rfl, hnodup, ?_, ?_, ?_, ?_⟩
  · exact List.nodup_iff_count_le_one.mp hnodup _
  · exact List.nodup_iff_count_le_one.mp hnodup _
  · intro kv h
    obtain ⟨hn, hv⟩ := setQA_foldl_last attributes [("Action", "SetQueueAttributes")] kv h
    unfold setQueueAttributesParams
    simp only [dictUpdate, List.foldl_cons, List.foldl_nil]
    rw [dictGet_dictSet_ne _ _ (by decide), dictGet_dictSet_ne _ _ (by decide)]
    exact ⟨hn, hv⟩
  · intro k hk
    unfold setQueueAttributesParams at hk
    simp only [dictUpdate, List.foldl_cons, List.foldl_nil] at hk
    rcases keys_dictSet _ _ _ _ hk with h | h
    · exact Or.inr (Or.inr (Or.inr h))
    · rcases setQA_foldl_keys attributes _ k h with h' | h'
      · simp only [List.map_cons, List.map_nil, List.mem_singleton] at h'
        exact Or.inl h'
      · rcases h' with h' | h'
        · exact Or.inr (Or.inl h')
        · exact Or.inr (Or.inr (Or.inl h'))

/-- C9 witness: two supplied attributes, only the last survives. -/
theorem claim_C9_witness :
    dictGet (setQueueAttributesParams [("VisibilityTimeout", "300"), ("DelaySeconds", "0")])
      "Attribute.Name" = some "DelaySeconds"
  ∧ dictGet (setQueueAttributesParams [("VisibilityTimeout", "300"), ("DelaySeconds", "0")])
      "Attribute.Value" = some "0" :=
  (claim_C9 [("VisibilityTimeout", "300"), ("DelaySeconds", "0")] "http://q/1").2.2.2.2.1
    ("DelaySeconds", "0") rfl

/-! ## Claim C10: create_queue iterates over dict keys and unpacks them -/

theorem createQueueLoop_err : ∀ (ks : List String) (p : List (String × String)) (i : Nat)
    {k : String}, k ∈ ks → k.length ≠ 2 → createQueueLoop p i ks = .error .valueError := by
  intro ks
  induction ks with
  | nil =>
    intro p i k hmem
    exact absurd hmem (List.not_mem_nil k)
  | cons k' rest ih =>
    intro p i k hmem hlen
    rcases List.mem_cons.mp hmem with heq | hmem'
    · subst heq
      rcases hk : k.data with _ | ⟨c1, _ | ⟨c2, _ | ⟨c3, tl⟩⟩⟩
      · simp [createQueueLoop, hk]
      · simp [createQueueLoop, hk]
      · exact absurd (by rw [strLen, hk]; rfl) hlen
      · simp [createQueueLoop, hk]
    · rcases hd : k'.data with _ | ⟨c1, _ | ⟨c2, _ | ⟨c3, tl⟩⟩⟩
      · simp [createQueueLoop, hd]
      · simp [createQueueLoop, hd]
      · simp only [createQueueLoop, hd]
        exact ih _ _ hmem' hlen
      · simp [createQueueLoop, hd]

/-- C10: `create_queue` iterates over the attributes dict itself — its
keys — and tuple-unpacks each key.  With the default empty mapping it
succeeds; any attributes dict containing a key that is not a length-2
sequence makes it fail with the unpacking `ValueError` before any request
is built; the dict's values are never consumed (the built parameters
depend only on the keys); and on success the attribute indices start at 0
(`Attribute.0.Name`), while `get_queue_attributes` indices start at 1
(`AttributeName.1`). -/
theorem claim_C10 :
    (∀ qn : String, createQueueParams qn []
        = .ok [("Action", "CreateQueue"), ("QueueName", qn), ("Version", "2012-11-05")])
  ∧ (∀ (qn : String) (attrs : List (String × String)) (k : String),
      k ∈ attrs.map Prod.fst → k.length ≠ 2 →
      createQueueParams qn attrs = .error .valueError)
  ∧ (∀ (qn : String) (a1 a2 : List (String × String)),
      a1.map Prod.fst = a2.map Prod.fst → createQueueParams qn a1 = createQueueParams qn a2)
  ∧ (∀ (qn : String) (c1 c2 : Char) (v : String),
      createQueueParams qn [(String.mk [c1, c2], v)]
        = .ok [("Action", "CreateQueue"), ("QueueName", qn),
            ("Attribute.0.Name", String.mk [c1]), ("Attribute.0.Value", String.mk [c2]),
            ("Version", "2012-11-05")])
  ∧ (∀ a : String, getQueueAttributesParams [a]
      = [("Action", "GetQueueAttributes"), ("AttributeName.1", a), ("Version", "2012-11-05")]) := by
  refine ⟨fun qn => rfl, ?_, ?_, fun qn c1 c2 v => rfl, fun a => rfl⟩
  · intro qn attrs k hmem hlen
    unfold createQueueParams
    rw [createQueueLoop_err (attrs.map Prod.fst) _ 0 hmem hlen]
    rfl
  · intro qn a1 a2 h
    unfold createQueueParams
    rw [h]

/-- C10 witness: a 3-character key fails with the unpacking error; the
attribute values do not influence the outcome. -/
theorem claim_C10_witness :
    createQueueParams "q" [("abc", "v")] = .error .valueError
  ∧ createQueueParams "q" [("ab", "v1")] = createQueueParams "q" [("ab", "v2")] :=
  ⟨claim_C10.2.1 "q" [("abc", "v")] "abc" (by simp) (by decide),
   claim_C10.2.2.1 "q" [("ab", "v1")] [("ab", "v2")] rfl⟩
